import Mathlib

/-!
Shallow embedding of `src/time_tracker.py` (a personal time-tracking CLI).

The data of the program are modelled as follows:
* `datetime` values (second precision) become the `Datetime` structure;
* `timedelta` values become `Int` (total seconds; Python normalises a
  timedelta to `(days, seconds)` with `seconds ∈ [0, 86400)`, and the
  attribute `td.seconds` is modelled by `· % 86400`);
* strings are processed character-wise on `List Char`; every `String`-level
  function is a thin wrapper over a `...Chars` worker on `String.data`;
* fallible Python calls (which raise `ValueError` / `SyntaxError`) return
  `Option`;
* the on-disk state of the `Record` store (marker file plus append-only
  log file) becomes the `RState` structure: the text content of the marker file, and the
  list of text lines of `log.txt` (each `Record.write` appends exactly one
  line, and the dumped line never contains a raw newline, so file lines and
  written lines correspond one to one).

Library functions of CPython used by the program (`str.strip`, `str.split`,
`int`, `datetime.strptime` with the fixed `DATE_FORMAT` of the module, `repr` of
`str`, `ast.literal_eval`) are modelled faithfully for the character classes
that can actually appear in a log line; the deliberate simplifications
(no underscore digit separators in `int`, no triple-quoted or concatenated
string literals, no octal/`\uXXXX` escapes, ASCII whitespace only) are noted
at each definition.
-/

namespace TimeTracker

/-- The tab character (the field separator `"\t"` of the log format). -/
def tabChar : Char := Char.ofNat 9

/-- The newline character. -/
def nlChar : Char := Char.ofNat 10

/-- The carriage-return character. -/
def crChar : Char := Char.ofNat 13

/-- The space character. -/
def spChar : Char := Char.ofNat 32

/-- The single-quote character used by Python `repr`. -/
def squote : Char := Char.ofNat 39

/-- The double-quote character. -/
def dquote : Char := Char.ofNat 34

/-- The backslash character. -/
def bslash : Char := Char.ofNat 92

/-- Decimal digit character for `d < 10` (used by the Python `%02`/`%04`
zero-padded formatting). -/
def digitChar (d : Nat) : Char := Char.ofNat (48 + d)

/-- Numeric value of a decimal digit character. -/
def digitVal (c : Char) : Nat := c.toNat - 48

/-- Value of a string of decimal digits, most significant first. -/
def digitsVal (l : List Char) : Nat := l.foldl (fun a c => 10 * a + digitVal c) 0

/-- Two-digit zero-padded decimal rendering (Python `f"{n:02}"` for `n < 100`). -/
def pad2 (n : Nat) : List Char := [digitChar (n / 10), digitChar (n % 10)]

/-- Four-digit zero-padded decimal rendering (the `%Y` field). -/
def pad4 (n : Nat) : List Char :=
  [digitChar (n / 1000), digitChar (n / 100 % 10), digitChar (n / 10 % 10), digitChar (n % 10)]

/-- Maximal leading run of decimal digits and the remainder, as matched by
the numeric fields of the CPython `_strptime` regex. -/
def takeDigits (l : List Char) : List Char × List Char :=
  (l.takeWhile Char.isDigit, l.dropWhile Char.isDigit)

/-- ASCII whitespace recognised by Python `str.strip()` and `int()`
(space, tab, newline, carriage return, vertical tab, form feed; the rarely
relevant non-ASCII Unicode spaces are not modelled). -/
def isPySpace (c : Char) : Bool :=
  c == spChar || c == tabChar || c == nlChar || c == crChar ||
  c == Char.ofNat 11 || c == Char.ofNat 12

/-- Python `str.strip()`: drop whitespace from both ends. -/
def stripL (l : List Char) : List Char :=
  ((l.dropWhile isPySpace).reverse.dropWhile isPySpace).reverse

/-- A wall-clock timestamp of second precision (`datetime.datetime`,
microseconds are always zero in the data of this program). -/
structure Datetime where
  year : Nat
  month : Nat
  day : Nat
  hour : Nat
  minute : Nat
  second : Nat
deriving DecidableEq, Repr

/-- Gregorian leap-year test, as in the Python `calendar` and `datetime` modules. -/
def isLeap (y : Nat) : Bool := (y % 4 == 0 && y % 100 != 0) || y % 400 == 0

/-- Number of days in a month. -/
def daysInMonth (y m : Nat) : Nat :=
  if m = 2 then (if isLeap y then 29 else 28)
  else if m = 4 ∨ m = 6 ∨ m = 9 ∨ m = 11 then 30
  else 31

/-- A well-formed `datetime` value. Years are restricted to four digits with
a nonzero leading digit so that the platform-dependent zero-padding of
`strftime("%Y")` for years below 1000 never arises. -/
def ValidDT (t : Datetime) : Prop :=
  1000 ≤ t.year ∧ t.year ≤ 9999 ∧ 1 ≤ t.month ∧ t.month ≤ 12 ∧
  1 ≤ t.day ∧ t.day ≤ daysInMonth t.year t.month ∧
  t.hour ≤ 23 ∧ t.minute ≤ 59 ∧ t.second ≤ 59

instance (t : Datetime) : Decidable (ValidDT t) := by
  unfold ValidDT; exact inferInstance

/-- Rendering of `t.strftime(DATE_FORMAT)` with
`DATE_FORMAT = "%Y-%m-%d %H:%M:%S"` (`time_tracker.py` line 17). -/
def dump_datetime_chars (t : Datetime) : List Char :=
  pad4 t.year ++ '-' :: pad2 t.month ++ '-' :: pad2 t.day ++ spChar ::
  pad2 t.hour ++ ':' :: pad2 t.minute ++ ':' :: pad2 t.second

/-- String wrapper for `dump_datetime_chars`. -/
def dump_datetime (t : Datetime) : String := (dump_datetime_chars t).asString

/-- Parse a run of one or two digits (CPython `_strptime` matches the
`%m %d %H %M %S` fields with one- or two-digit alternatives, so
non-zero-padded values are accepted). -/
def parseNum2 (l : List Char) : Option (Nat × List Char) :=
  let p := takeDigits l
  if p.1.length = 1 ∨ p.1.length = 2 then some (digitsVal p.1, p.2) else none

/-- Parse a run of exactly four digits (the `%Y` field). -/
def parseNum4 (l : List Char) : Option (Nat × List Char) :=
  let p := takeDigits l
  if p.1.length = 4 then some (digitsVal p.1, p.2) else none

/-- Consume one expected literal character. -/
def expectChar (c : Char) (l : List Char) : Option (List Char) :=
  match l with
  | d :: r => if d = c then some r else none
  | [] => none

/-- Model of `datetime.strptime(s, DATE_FORMAT)`. CPython compiles the
format to a regex whose numeric fields accept non-zero-padded one- or
two-digit values (except `%Y`, exactly four digits), requires a full match,
and then the `datetime` constructor re-checks the ranges (day against the
month length, seconds at most 59, year at least 1). -/
def parse_datetime_chars (l : List Char) : Option Datetime := do
  let (y, r1) ← parseNum4 l
  let r2 ← expectChar '-' r1
  let (mo, r3) ← parseNum2 r2
  let r4 ← expectChar '-' r3
  let (d, r5) ← parseNum2 r4
  let r6 ← expectChar spChar r5
  let (h, r7) ← parseNum2 r6
  let r8 ← expectChar ':' r7
  let (mi, r9) ← parseNum2 r8
  let r10 ← expectChar ':' r9
  let (s, r11) ← parseNum2 r10
  if r11 = [] ∧ 1 ≤ y ∧ 1 ≤ mo ∧ mo ≤ 12 ∧ 1 ≤ d ∧ d ≤ daysInMonth y mo ∧
     h ≤ 23 ∧ mi ≤ 59 ∧ s ≤ 59 then
    some ⟨y, mo, d, h, mi, s⟩
  else none

/-- String wrapper for `parse_datetime_chars`. -/
def parse_datetime (s : String) : Option Datetime := parse_datetime_chars s.data

/-- Rendering of `dump_td` (`time_tracker.py` lines 25-29). A Python
`timedelta` is normalised to `(days, seconds)` with `seconds ∈ [0, 86400)`,
and the code reads the attribute `td.seconds` — NOT `total_seconds()` — so
whole days are dropped: the modelled attribute is `t % 86400` (`Int.emod`,
always in `[0, 86400)`). -/
def dump_td_chars (t : Int) : List Char :=
  let s := (t % 86400).toNat
  pad2 (s / (60 * 60)) ++ ':' :: pad2 (s % (60 * 60) / 60) ++ ':' :: pad2 (s % 60)

/-- String wrapper for `dump_td_chars`. -/
def dump_td (t : Int) : String := (dump_td_chars t).asString

/-- Python `str.split(sep)` with a single-character separator and no limit. -/
def splitChar (sep : Char) : List Char → List (List Char)
  | [] => [[]]
  | c :: r =>
    let res := splitChar sep r
    if c = sep then [] :: res
    else
      match res with
      | h :: t => (c :: h) :: t
      | [] => [[c]]

/-- Python `int(str)`: surrounding whitespace is allowed, then an optional
sign and a nonempty digit string (underscore group separators and non-ASCII
digits are not modelled). -/
def pyIntChars (l : List Char) : Option Int :=
  let l1 := stripL l
  match l1 with
  | c :: r =>
    if c = '-' then
      if r ≠ [] ∧ r.all Char.isDigit then some (-(digitsVal r : Int)) else none
    else if c = '+' then
      if r ≠ [] ∧ r.all Char.isDigit then some ((digitsVal r : Int)) else none
    else if l1.all Char.isDigit then some ((digitsVal l1 : Int)) else none
  | [] => none

/-- Model of `parse_td` (`time_tracker.py` lines 20-22):
`hours, minutes, seconds = map(int, td.split(":"))` then
`timedelta(hours=h, minutes=m, seconds=s)`, whose total seconds are
`h*3600 + m*60 + s`. The unpacking raises unless the split yields exactly
three parts. -/
def parse_td_chars (l : List Char) : Option Int :=
  match splitChar ':' l with
  | [a, b, c] => do
    let h ← pyIntChars a
    let m ← pyIntChars b
    let s ← pyIntChars c
    some (h * (3600 : Int) + m * 60 + s)
  | _ => none

/-- String wrapper for `parse_td_chars`. -/
def parse_td (s : String) : Option Int := parse_td_chars s.data

/-- Result of `ast.literal_eval` as used on the description field. The
program never checks that the literal is a string, so a numeric literal is
accepted silently; the two constructors cover the literal forms modelled. -/
inductive PyLit where
  | pstr : String → PyLit
  | pint : Int → PyLit
deriving DecidableEq, Repr

/-- Lower-case hexadecimal digit (as emitted by CPython `repr` in `\xNN`). -/
def hexDigit (n : Nat) : Char :=
  if n < 10 then digitChar n else Char.ofNat (87 + n)

/-- Value of a hexadecimal digit character (either case). -/
def hexDigitVal (c : Char) : Option Nat :=
  if c.isDigit then some (digitVal c)
  else if 'a' ≤ c ∧ c ≤ 'f' then some (c.toNat - 87)
  else if 'A' ≤ c ∧ c ≤ 'F' then some (c.toNat - 55)
  else none

/-- Quote character chosen by CPython `repr` for a string: single quote,
unless the string contains a single quote and no double quote. -/
def reprQuote (s : List Char) : Char :=
  if squote ∈ s ∧ ¬ dquote ∈ s then dquote else squote

/-- Per-character escaping of CPython `repr` with chosen quote `q`:
backslash, the quote, newline, carriage return and tab are backslash-escaped,
other control characters become `\xNN`, everything else is kept literally
(CPython would `\x`/`\u`-escape non-ASCII unprintables too; keeping them
literal round-trips identically). -/
def pyReprChar (q c : Char) : List Char :=
  if c = bslash then [bslash, bslash]
  else if c = q then [bslash, q]
  else if c = nlChar then [bslash, 'n']
  else if c = crChar then [bslash, 'r']
  else if c = tabChar then [bslash, 't']
  else if c.toNat < 32 ∨ c.toNat = 127 then
    [bslash, 'x', hexDigit (c.toNat / 16), hexDigit (c.toNat % 16)]
  else [c]

/-- CPython `repr` of a string (the `{desc!r}` in `dump_entry`). -/
def pyReprChars (s : List Char) : List Char :=
  let q := reprQuote s
  q :: (s.map (pyReprChar q)).flatten ++ [q]

/-- String wrapper for `pyReprChars`. -/
def pyRepr (s : String) : String := (pyReprChars s.data).asString

/-- Decoding of a simple backslash escape in a Python string literal.
`none` means the escape is not recognised; Python then keeps the backslash
and the character literally. -/
def escDecode (e : Char) : Option Char :=
  if e = 'n' then some nlChar
  else if e = 't' then some tabChar
  else if e = 'r' then some crChar
  else if e = bslash then some bslash
  else if e = squote then some squote
  else if e = dquote then some dquote
  else if e = 'a' then some (Char.ofNat 7)
  else if e = 'b' then some (Char.ofNat 8)
  else if e = 'f' then some (Char.ofNat 12)
  else if e = 'v' then some (Char.ofNat 11)
  else if e = '0' then some (Char.ofNat 0)
  else none

/-- Body of a single-quoted Python string literal with quote `q`: returns
the decoded characters and the input remaining after the closing quote.
A raw newline or carriage return inside the literal is a syntax error, as is
an unterminated literal or a `\x` escape without two hex digits. -/
def parseStrBody (q : Char) : List Char → Option (List Char × List Char)
  | [] => none
  | c :: rest =>
    if c = q then some ([], rest)
    else if c = nlChar ∨ c = crChar then none
    else if c = bslash then
      match rest with
      | [] => none
      | e :: rest2 =>
        if e = 'x' then
          match rest2 with
          | h1 :: h2 :: rest3 =>
            match hexDigitVal h1, hexDigitVal h2 with
            | some a, some b =>
              (parseStrBody q rest3).map (fun p => (Char.ofNat (16 * a + b) :: p.1, p.2))
            | _, _ => none
          | _ => none
        else
          match escDecode e with
          | some d => (parseStrBody q rest2).map (fun p => (d :: p.1, p.2))
          | none => (parseStrBody q rest2).map (fun p => (bslash :: e :: p.1, p.2))
    else (parseStrBody q rest).map (fun p => (c :: p.1, p.2))

/-- Model of `ast.literal_eval` restricted to the literal forms relevant
here: a single- or double-quoted string literal (no prefix, no triple
quotes, no implicit concatenation), or an optionally negated integer
literal. Any other input is a syntax error (`none`). -/
def pyLiteralEvalChars : List Char → Option PyLit
  | [] => none
  | c :: rest =>
    if c = squote ∨ c = dquote then
      match parseStrBody c rest with
      | some p => if p.2 = [] then some (.pstr p.1.asString) else none
      | none => none
    else if c = '-' then
      if rest ≠ [] ∧ rest.all Char.isDigit then some (.pint (-(digitsVal rest : Int)))
      else none
    else if (c :: rest).all Char.isDigit then some (.pint (digitsVal (c :: rest))) else none

/-- String wrapper for `pyLiteralEvalChars` (the `literal_eval(desc)` call
in `parse_entry`). -/
def literal_eval (s : String) : Option PyLit := pyLiteralEvalChars s.data

/-- Model of `dump_entry` (`time_tracker.py` lines 40-42): the strftime-formatted
start, the dumped duration and the `repr` of the description, tab-separated. -/
def dump_entry_chars (e : Datetime × Int × String) : List Char :=
  dump_datetime_chars e.1 ++ tabChar :: dump_td_chars e.2.1 ++ tabChar :: pyReprChars e.2.2.data

/-- String wrapper for `dump_entry_chars`. -/
def dump_entry (e : Datetime × Int × String) : String := (dump_entry_chars e).asString

/-- Split at the first tab, if any. -/
def breakOnTab : List Char → Option (List Char × List Char)
  | [] => none
  | c :: r =>
    if c = tabChar then some ([], r)
    else (breakOnTab r).map (fun p => (c :: p.1, p.2))

/-- Python `line.split("\t", 2)`: at most two splits, so the result has one,
two or three parts and the third part keeps any further tabs. -/
def splitTab2 (l : List Char) : List (List Char) :=
  match breakOnTab l with
  | none => [l]
  | some (a, r1) =>
    match breakOnTab r1 with
    | none => [a, r1]
    | some (b, r2) => [a, b, r2]

/-- Field-wise decoding of the split line: the tuple unpacking raises unless
the split yielded exactly three parts, then each field is parsed. -/
def parseFields : List (List Char) → Option (Datetime × Int × PyLit)
  | [a, b, c] =>
    match parse_datetime_chars a, parse_td_chars b, pyLiteralEvalChars c with
    | some dt, some td, some ds => some (dt, td, ds)
    | _, _, _ => none
  | _ => none

/-- Model of `parse_entry` (`time_tracker.py` lines 32-37): strip the line,
split on tabs (two splits at most), then parse the three fields. Any
exception is `none`. -/
def parse_entry_chars (l : List Char) : Option (Datetime × Int × PyLit) :=
  parseFields (splitTab2 (stripL l))

/-- String wrapper for `parse_entry_chars`. -/
def parse_entry (s : String) : Option (Datetime × Int × PyLit) := parse_entry_chars s.data

/-- Observable state of the `Record` store: the text content of the marker
file `_current_stamp` (when it exists) and the lines of `log.txt`. -/
structure RState where
  marker : Option String
  timelog : List String
deriving DecidableEq, Repr

/-- A freshly initialised store (`Record.__init__` creates an empty log and
no marker). -/
def initState : RState := ⟨none, []⟩

/-- Model of `Record.start` (`time_tracker.py` lines 58-66): fail if the
marker exists, otherwise write the strftime-formatted current time to the marker
file and succeed. -/
def Record.start (now : Datetime) (s : RState) : Bool × RState :=
  if s.marker.isSome then (false, s)
  else (true, { s with marker := some (dump_datetime now) })

/-- Days in the months strictly before month `m` of year `y`. -/
def daysBeforeMonth (y m : Nat) : Nat :=
  (List.range (m - 1)).foldl (fun a i => a + daysInMonth y (i + 1)) 0

/-- Days between 0001-01-01 and the date of `t` (proleptic Gregorian). -/
def toRata (t : Datetime) : Nat :=
  365 * (t.year - 1) + (t.year - 1) / 4 - (t.year - 1) / 100 + (t.year - 1) / 400 +
  daysBeforeMonth t.year t.month + (t.day - 1)

/-- Seconds between `datetime(1, 1, 1)` and `t`. -/
def toSeconds (t : Datetime) : Int :=
  86400 * (toRata t : Int) + 3600 * (t.hour : Int) + 60 * (t.minute : Int) + (t.second : Int)

/-- Python `datetime` subtraction `a - b`, as total seconds of the
resulting `timedelta`. -/
def dtSub (a b : Datetime) : Int := toSeconds a - toSeconds b

/-- Model of `Record.current` (`time_tracker.py` lines 68-76): with no
marker return `(None, timedelta())`; otherwise parse the marker content
(strptime raises — `none` overall — if it is corrupt) and return the parsed
start and `now - start`. -/
def Record.current (now : Datetime) (s : RState) : Option (Option Datetime × Int) :=
  match s.marker with
  | none => some (none, 0)
  | some m => (parse_datetime m).map (fun t => (some t, dtSub now t))

/-- Model of `Record.write` (`time_tracker.py` lines 78-81): append the
dumped entry as one line of the log. -/
def Record.write (s : RState) (e : Datetime × Int × String) : RState :=
  { s with timelog := s.timelog ++ [dump_entry e] }

/-- Parse every log line, propagating the first failure (the list
comprehension `[parse_entry(line) for line in f]` in `Record.load` lets the
first `ValueError`/`SyntaxError` escape; no line is skipped). -/
def loadLines : List String → Option (List (Datetime × Int × PyLit))
  | [] => some []
  | l :: ls =>
    match parse_entry l, loadLines ls with
    | some e, some es => some (e :: es)
    | _, _ => none

/-- Model of `Record.load` (`time_tracker.py` lines 83-85). -/
def Record.load (s : RState) : Option (List (Datetime × Int × PyLit)) := loadLines s.timelog

/-- Model of `Record.stop` (`time_tracker.py` lines 87-90): delete the
marker if present, silently do nothing otherwise. -/
def Record.stop (s : RState) : RState := { s with marker := none }

/-- Iterated `Record.write` over a call sequence. -/
def writeAll (s : RState) (ws : List (Datetime × Int × String)) : RState :=
  ws.foldl Record.write s

/-- Displayed time of the `status` command (`time_tracker.py` lines
111-119): `time = datetime(year=1, month=1, day=1) + delta`, printed as
`%H:%M:%S`. The base datetime is midnight, so the time of day of the sum is
`delta mod 86400` seconds; a negative delta underflows `datetime.min` and a
delta past `datetime.max` (9999-12-31 23:59:59, which lies 3652058 days plus
86399 seconds = 315537897599 seconds after `datetime(1, 1, 1)`) overflows,
both raising. The date part is discarded by the `%H:%M:%S` format. -/
def statusTime (delta : Int) : Option (Nat × Nat × Nat) :=
  if delta < 0 ∨ 315537897599 < delta then none
  else
    let tod := delta.toNat % 86400
    some (tod / 3600, tod % 3600 / 60, tod % 60)

/-- Calendar date of a timestamp (Python `datetime.date()`; two dates are
equal exactly when year, month and day agree). -/
def dateOf (t : Datetime) : Nat × Nat × Nat := (t.year, t.month, t.day)

/-- Model of the filtering done by the `show` command (`time_tracker.py`
lines 153-163): `date_time` is `datetime.now()` when no `--date` was given,
else the strptime-parsed argument; the kept records are the loaded entries whose
start date equals `date_time.date()`. -/
def show_records (entries : List (Datetime × Int × PyLit)) (dateArg : Option Datetime)
    (now : Datetime) : List (Datetime × Int × PyLit) :=
  entries.filter (fun e => decide (dateOf e.1 = dateOf (dateArg.getD now)))

/-- Python `repr` of a loaded description value (`dump_entry` formats the
description with `{desc!r}`, and the `log` command re-dumps loaded entries,
whose description may be a non-string literal). -/
def dumpPyLit (v : PyLit) : String :=
  match v with
  | .pstr s => pyRepr s
  | .pint n => toString n

/-- Re-rendering of a loaded entry by the generator of the `log` command. -/
def dump_entry_out (e : Datetime × Int × PyLit) : String :=
  (dump_datetime_chars e.1 ++ tabChar :: dump_td_chars e.2.1 ++
    tabChar :: (dumpPyLit e.2.2).data).asString

/-- Loop body of `reverse_log` in the `log` command (`time_tracker.py`
lines 166-183): `curr` holds the date of the previously emitted entry
(`None` before the first); a blank separator line is yielded when the date
changes, then the dumped entry line. -/
def reverse_log_aux (curr : Option (Nat × Nat × Nat)) :
    List (Datetime × Int × PyLit) → List String
  | [] => []
  | e :: rest =>
    let d := dateOf e.1
    match curr with
    | none => (dump_entry_out e ++ "\n") :: reverse_log_aux (some d) rest
    | some c =>
      if c ≠ d then ("\n") :: (dump_entry_out e ++ "\n") :: reverse_log_aux (some d) rest
      else (dump_entry_out e ++ "\n") :: reverse_log_aux (some d) rest

/-- The full sequence yielded by the generator of the `log` command: the loaded
entries in reverse file order with date-change separators. -/
def reverse_log (entries : List (Datetime × Int × PyLit)) : List String :=
  reverse_log_aux none entries.reverse

/-- Modelled from the spec: the grouped reverse listing described for the
`log` command — one line per entry, with exactly one blank separator between
adjacent entries whose calendar dates differ and none otherwise. -/
def groupedListing : List (Datetime × Int × PyLit) → List String
  | [] => []
  | [e] => [dump_entry_out e ++ "\n"]
  | e1 :: e2 :: rest =>
    (dump_entry_out e1 ++ "\n") ::
      ((if dateOf e1.1 ≠ dateOf e2.1 then ["\n"] else []) ++ groupedListing (e2 :: rest))

/-- Modelled from the spec: a date-time string in the fixed-width format
`YYYY-MM-DD HH:MM:SS` (the fixed format that the spec requires of the first field). -/
def fixedDateFormat (s : String) : Bool :=
  match s.data with
  | [y1, y2, y3, y4, s1, m1, m2, s2, d1, d2, s3, h1, h2, s4, n1, n2, s5, c1, c2] =>
    y1.isDigit && y2.isDigit && y3.isDigit && y4.isDigit && s1 == '-' &&
    m1.isDigit && m2.isDigit && s2 == '-' && d1.isDigit && d2.isDigit &&
    s3 == spChar && h1.isDigit && h2.isDigit && s4 == ':' &&
    n1.isDigit && n2.isDigit && s5 == ':' && c1.isDigit && c2.isDigit
  | _ => false

/-- Failure condition of `parse_entry` in terms of its three field parsers:
the stripped line must split into exactly three tab-separated fields and
each field parser must succeed. -/
def decodeFailCond (l : List Char) : Prop :=
  match splitTab2 (stripL l) with
  | [a, b, c] =>
    parse_datetime_chars a = none ∨ parse_td_chars b = none ∨ pyLiteralEvalChars c = none
  | _ => True

/-! Helper lemmas about digits, padding and the primitive scanners. -/

theorem digitChar_toNat (d : Nat) (h : d < 10) : (digitChar d).toNat = 48 + d := by
  interval_cases d <;> rfl

theorem digitChar_isDigit (d : Nat) (h : d < 10) : (digitChar d).isDigit = true := by
  interval_cases d <;> decide

theorem digitVal_digitChar (d : Nat) (h : d < 10) : digitVal (digitChar d) = d := by
  unfold digitVal
  rw [digitChar_toNat d h]
  omega

theorem isDigit_ne {c k : Char} (h : c.isDigit = true) (hk : k.isDigit = false) : c ≠ k := by
  intro he
  rw [he] at h
  simp [h] at hk

theorem isDigit_toNat {c : Char} (h : c.isDigit = true) : 48 ≤ c.toNat ∧ c.toNat ≤ 57 := by
  unfold Char.isDigit at h
  simp only [Bool.and_eq_true, decide_eq_true_eq] at h
  exact ⟨h.1, h.2⟩

theorem isDigit_not_space {c : Char} (h : c.isDigit = true) : isPySpace c = false := by
  have hb := isDigit_toNat h
  unfold isPySpace
  have h1 : c ≠ spChar := fun he => by rw [he] at hb; exact absurd hb (by decide)
  have h2 : c ≠ tabChar := fun he => by rw [he] at hb; exact absurd hb (by decide)
  have h3 : c ≠ nlChar := fun he => by rw [he] at hb; exact absurd hb (by decide)
  have h4 : c ≠ crChar := fun he => by rw [he] at hb; exact absurd hb (by decide)
  have h5 : c ≠ Char.ofNat 11 := fun he => by rw [he] at hb; exact absurd hb (by decide)
  have h6 : c ≠ Char.ofNat 12 := fun he => by rw [he] at hb; exact absurd hb (by decide)
  simp [h1, h2, h3, h4, h5, h6]

theorem digitsVal_pad2 (n : Nat) (h : n < 100) : digitsVal (pad2 n) = n := by
  unfold digitsVal pad2
  simp only [List.foldl_cons, List.foldl_nil]
  rw [digitVal_digitChar (n / 10) (by omega), digitVal_digitChar (n % 10) (by omega)]
  omega

theorem digitsVal_pad4 (n : Nat) (h : n < 10000) : digitsVal (pad4 n) = n := by
  unfold digitsVal pad4
  simp only [List.foldl_cons, List.foldl_nil]
  rw [digitVal_digitChar (n / 1000) (by omega), digitVal_digitChar (n / 100 % 10) (by omega),
    digitVal_digitChar (n / 10 % 10) (by omega), digitVal_digitChar (n % 10) (by omega)]
  omega

theorem pad2_isDigit {c : Char} {n : Nat} (h : n < 100) (hc : c ∈ pad2 n) : c.isDigit = true := by
  unfold pad2 at hc
  simp only [List.mem_cons, List.not_mem_nil, or_false] at hc
  rcases hc with h1 | h1 <;> subst h1 <;> exact digitChar_isDigit _ (by omega)

theorem pad4_isDigit {c : Char} {n : Nat} (h : n < 10000) (hc : c ∈ pad4 n) :
    c.isDigit = true := by
  unfold pad4 at hc
  simp only [List.mem_cons, List.not_mem_nil, or_false] at hc
  rcases hc with h1 | h1 | h1 | h1 <;> subst h1 <;> exact digitChar_isDigit _ (by omega)

theorem takeDigits_append (A r : List Char) (hA : ∀ c ∈ A, c.isDigit = true)
    (hr : ∀ c, r.head? = some c → c.isDigit = false) :
    takeDigits (A ++ r) = (A, r) := by
  unfold takeDigits
  induction A with
  | nil =>
    cases r with
    | nil => rfl
    | cons c t =>
      have hc := hr c rfl
      simp [List.takeWhile_cons, List.dropWhile_cons, hc]
  | cons a A ih =>
    have ha := hA a (by simp)
    have ih2 := ih (fun c hc => hA c (by simp [hc]))
    simp only [List.cons_append, List.takeWhile_cons, List.dropWhile_cons, ha, if_true]
    simp only [Prod.mk.injEq] at ih2
    simp [ih2.1, ih2.2]

theorem expectChar_cons (c : Char) (r : List Char) : expectChar c (c :: r) = some r := by
  simp [expectChar]

theorem dropWhile_head (p : Char → Bool) (l : List Char) (h : ∀ c, l.head? = some c → p c = false) :
    l.dropWhile p = l := by
  cases l with
  | nil => rfl
  | cons c t => simp [List.dropWhile_cons, h c rfl]

theorem stripL_first_last (l : List Char) (a b : Char) (h1 : l.head? = some a)
    (h2 : l.getLast? = some b) (ha : isPySpace a = false) (hb : isPySpace b = false) :
    stripL l = l := by
  unfold stripL
  rw [dropWhile_head isPySpace l (fun c hc => by rw [h1] at hc; cases hc; exact ha)]
  rw [dropWhile_head isPySpace l.reverse
    (fun c hc => by rw [List.head?_reverse, h2] at hc; cases hc; exact hb)]
  exact List.reverse_reverse l

theorem breakOnTab_append (A r : List Char) (hA : ∀ c ∈ A, c ≠ tabChar) :
    breakOnTab (A ++ tabChar :: r) = some (A, r) := by
  induction A with
  | nil => simp [breakOnTab]
  | cons a A ih =>
    have ha := hA a (by simp)
    have ih2 := ih (fun c hc => hA c (by simp [hc]))
    simp [breakOnTab, ha, ih2]

theorem splitTab2_eq (A B C : List Char) (hA : ∀ c ∈ A, c ≠ tabChar)
    (hB : ∀ c ∈ B, c ≠ tabChar) :
    splitTab2 (A ++ tabChar :: (B ++ tabChar :: C)) = [A, B, C] := by
  unfold splitTab2
  simp only [breakOnTab_append A _ hA, breakOnTab_append B _ hB]

theorem splitChar_no_sep (sep : Char) (C : List Char) (h : ∀ c ∈ C, c ≠ sep) :
    splitChar sep C = [C] := by
  induction C with
  | nil => rfl
  | cons c t ih =>
    have hc := h c (by simp)
    have ih2 := ih (fun d hd => h d (by simp [hd]))
    simp [splitChar, hc, ih2]

theorem splitChar_append (sep : Char) (A R : List Char) (hA : ∀ c ∈ A, c ≠ sep) :
    splitChar sep (A ++ sep :: R) = A :: splitChar sep R := by
  induction A with
  | nil => simp [splitChar]
  | cons a A ih =>
    have ha := hA a (by simp)
    have ih2 := ih (fun c hc => hA c (by simp [hc]))
    simp only [List.cons_append, splitChar, ha, if_false, List.append_eq, ih2]

/-! Round trips of the primitive field codecs. -/

theorem parseNum2_pad2 (n : Nat) (hn : n < 100) (r : List Char)
    (hr : ∀ c, r.head? = some c → c.isDigit = false) :
    parseNum2 (pad2 n ++ r) = some (n, r) := by
  unfold parseNum2
  rw [takeDigits_append _ _ (fun c hc => pad2_isDigit hn hc) hr]
  simp [pad2]
  exact digitsVal_pad2 n hn

theorem parseNum4_pad4 (n : Nat) (hn : n < 10000) (r : List Char)
    (hr : ∀ c, r.head? = some c → c.isDigit = false) :
    parseNum4 (pad4 n ++ r) = some (n, r) := by
  unfold parseNum4
  rw [takeDigits_append _ _ (fun c hc => pad4_isDigit hn hc) hr]
  simp [pad4]
  exact digitsVal_pad4 n hn

theorem pyIntChars_digits (A : List Char) (hne : A ≠ [])
    (hA : ∀ c ∈ A, c.isDigit = true) :
    pyIntChars A = some ((digitsVal A : Int)) := by
  obtain ⟨b, hb⟩ : ∃ b, A.getLast? = some b := by
    cases h : A.getLast? with
    | none => exact absurd (List.getLast?_eq_none_iff.1 h) hne
    | some b => exact ⟨b, rfl⟩
  cases A with
  | nil => exact absurd rfl hne
  | cons a t =>
    have ha := hA a (by simp)
    have hstrip : stripL (a :: t) = a :: t :=
      stripL_first_last (a :: t) a b rfl hb (isDigit_not_space ha)
        (isDigit_not_space (hA b (List.mem_of_getLast?_eq_some hb)))
    have hb48 := isDigit_toNat ha
    have hminus : a ≠ '-' := fun he => by rw [he] at hb48; exact absurd hb48 (by decide)
    have hplus : a ≠ '+' := fun he => by rw [he] at hb48; exact absurd hb48 (by decide)
    unfold pyIntChars
    simp only [hstrip]
    simp [hminus, hplus, List.all_eq_true.2 hA]

theorem daysInMonth_le_31 (y m : Nat) : daysInMonth y m ≤ 31 := by
  unfold daysInMonth
  split_ifs <;> omega

theorem parseNum2_cons (n : Nat) (hn : n < 100) (c : Char) (r : List Char)
    (hc : c.isDigit = false) : parseNum2 (pad2 n ++ c :: r) = some (n, c :: r) :=
  parseNum2_pad2 n hn (c :: r) (fun d hd => by cases hd; exact hc)

theorem parseNum2_last (n : Nat) (hn : n < 100) : parseNum2 (pad2 n) = some (n, []) := by
  have h := parseNum2_pad2 n hn [] (fun d hd => by cases hd)
  simpa using h

theorem parseNum4_cons (n : Nat) (hn : n < 10000) (c : Char) (r : List Char)
    (hc : c.isDigit = false) : parseNum4 (pad4 n ++ c :: r) = some (n, c :: r) :=
  parseNum4_pad4 n hn (c :: r) (fun d hd => by cases hd; exact hc)

theorem parse_dump_datetime (t : Datetime) (h : ValidDT t) :
    parse_datetime_chars (dump_datetime_chars t) = some t := by
  obtain ⟨h1, h2, h3, h4, h5, h6, h7, h8, h9⟩ := h
  have hd31 : t.day ≤ 31 := le_trans h6 (daysInMonth_le_31 t.year t.month)
  unfold dump_datetime_chars parse_datetime_chars
  simp only [List.cons_append, List.append_assoc]
  rw [parseNum4_cons t.year (by omega) '-' _ (by decide)]
  simp only [Option.bind_eq_bind, Option.some_bind, expectChar_cons]
  rw [parseNum2_cons t.month (by omega) '-' _ (by decide)]
  simp only [Option.some_bind, expectChar_cons]
  rw [parseNum2_cons t.day (by omega) spChar _ (by decide)]
  simp only [Option.some_bind, expectChar_cons]
  rw [parseNum2_cons t.hour (by omega) ':' _ (by decide)]
  simp only [Option.some_bind, expectChar_cons]
  rw [parseNum2_cons t.minute (by omega) ':' _ (by decide)]
  simp only [Option.some_bind, expectChar_cons]
  rw [parseNum2_last t.second (by omega)]
  simp only [Option.some_bind]
  rw [if_pos ⟨trivial, by omega, h3, h4, h5, h6, h7, h8, h9⟩]

theorem parse_dump_td (t : Int) (h0 : 0 ≤ t) (h1 : t < 86400) :
    parse_td_chars (dump_td_chars t) = some t := by
  have he : t % 86400 = t := Int.emod_eq_of_lt h0 h1
  have hS : t.toNat < 86400 := by omega
  unfold dump_td_chars parse_td_chars
  rw [he]
  have hh : t.toNat / (60 * 60) < 100 := by omega
  have hm : t.toNat % (60 * 60) / 60 < 100 := by omega
  have hs : t.toNat % 60 < 100 := by omega
  have nd : ∀ (n : Nat), n < 100 → ∀ c ∈ pad2 n, c ≠ ':' := by
    intro n hn c hc
    exact isDigit_ne (pad2_isDigit hn hc) (by decide)
  simp only [List.cons_append, List.append_assoc]
  rw [splitChar_append ':' (pad2 (t.toNat / (60 * 60))) _ (nd _ hh),
    splitChar_append ':' (pad2 (t.toNat % (60 * 60) / 60)) _ (nd _ hm),
    splitChar_no_sep ':' (pad2 (t.toNat % 60)) (nd _ hs)]
  simp only [pyIntChars_digits _ (by simp [pad2]) (fun c hc => pad2_isDigit hh hc),
    pyIntChars_digits _ (by simp [pad2]) (fun c hc => pad2_isDigit hm hc),
    pyIntChars_digits _ (by simp [pad2]) (fun c hc => pad2_isDigit hs hc)]
  simp only [Option.bind_eq_bind, Option.some_bind]
  rw [digitsVal_pad2 _ hh, digitsVal_pad2 _ hm, digitsVal_pad2 _ hs]
  congr 1
  omega

/-! Round trip of the description codec (`repr` / `literal_eval`). -/

theorem hexDigitVal_hexDigit (n : Nat) (h : n < 16) : hexDigitVal (hexDigit n) = some n := by
  interval_cases n <;> decide

theorem quote_facts (q : Char) (hq : q = squote ∨ q = dquote) :
    q ≠ bslash ∧ q ≠ nlChar ∧ q ≠ crChar ∧ q ≠ 'x' ∧ escDecode q = some q := by
  rcases hq with h | h <;> subst h <;>
    exact ⟨by decide, by decide, by decide, by decide, by decide⟩

theorem parseStrBody_flatten (q : Char) (hq : q = squote ∨ q = dquote) (s rest : List Char) :
    parseStrBody q ((s.map (pyReprChar q)).flatten ++ q :: rest) = some (s, rest) := by
  obtain ⟨hqb, hqn, hqr, hqx, hqe⟩ := quote_facts q hq
  have hbq : ¬ (bslash = q) := fun h => hqb h.symm
  have hbn : ¬ (bslash = nlChar ∨ bslash = crChar) := by decide
  have hbx : ¬ (bslash = 'x') := by decide
  have heb : escDecode bslash = some bslash := by decide
  have hen : escDecode 'n' = some nlChar := by decide
  have het : escDecode 't' = some tabChar := by decide
  have her : escDecode 'r' = some crChar := by decide
  induction s with
  | nil =>
    rw [parseStrBody.eq_def]
    simp only [List.map_nil, List.flatten_nil, List.nil_append, if_pos rfl, if_pos trivial]
  | cons c cs ih =>
    simp only [List.map_cons, List.flatten_cons, List.append_assoc]
    by_cases h1 : c = bslash
    · subst h1
      rw [show pyReprChar q bslash = [bslash, bslash] from by simp [pyReprChar]]
      simp only [List.cons_append, List.nil_append]
      rw [parseStrBody.eq_def]
      simp only [hbq, if_false, hbn, if_pos rfl, if_pos trivial, hbx, heb, ih]
      rfl
    · by_cases h2 : c = q
      · subst h2
        rw [show pyReprChar c c = [bslash, c] from by simp [pyReprChar, h1]]
        simp only [List.cons_append, List.nil_append]
        rw [parseStrBody.eq_def]
        simp only [hbq, if_false, hbn, if_pos rfl, if_pos trivial, hqx, hqe, ih]
        rfl
      · by_cases h3 : c = nlChar
        · subst h3
          have hnb : ¬ ((nlChar : Char) = bslash) := by decide
          have hnq : ¬ ((nlChar : Char) = q) := fun h => hqn h.symm
          have hnx : ¬ (('n' : Char) = 'x') := by decide
          rw [show pyReprChar q nlChar = [bslash, 'n'] from by
            simp [pyReprChar, hnb, hnq]]
          simp only [List.cons_append, List.nil_append]
          rw [parseStrBody.eq_def]
          simp only [hbq, if_false, hbn, if_pos rfl, if_pos trivial, hnx, hen, ih]
          rfl
        · by_cases h4 : c = crChar
          · subst h4
            have hrb : ¬ ((crChar : Char) = bslash) := by decide
            have hrq : ¬ ((crChar : Char) = q) := fun h => hqr h.symm
            have hrn : ¬ ((crChar : Char) = nlChar) := by decide
            have hrx : ¬ (('r' : Char) = 'x') := by decide
            rw [show pyReprChar q crChar = [bslash, 'r'] from by
              simp [pyReprChar, hrb, hrq, hrn]]
            simp only [List.cons_append, List.nil_append]
            rw [parseStrBody.eq_def]
            simp only [hbq, if_false, hbn, if_pos rfl, if_pos trivial, hrx, her, ih]
            rfl
          · by_cases h5 : c = tabChar
            · subst h5
              have htb : ¬ ((tabChar : Char) = bslash) := by decide
              have htq : ¬ ((tabChar : Char) = q) := by
                rcases hq with h | h <;> subst h <;> decide
              have htn : ¬ ((tabChar : Char) = nlChar) := by decide
              have htr : ¬ ((tabChar : Char) = crChar) := by decide
              have htx : ¬ (('t' : Char) = 'x') := by decide
              rw [show pyReprChar q tabChar = [bslash, 't'] from by
                simp [pyReprChar, htb, htq, htn, htr]]
              simp only [List.cons_append, List.nil_append]
              rw [parseStrBody.eq_def]
              simp only [hbq, if_false, hbn, if_pos rfl, if_pos trivial, htx, het, ih]
              rfl
            · by_cases h6 : c.toNat < 32 ∨ c.toNat = 127
              · rw [show pyReprChar q c =
                    [bslash, 'x', hexDigit (c.toNat / 16), hexDigit (c.toNat % 16)] from by
                  simp [pyReprChar, h1, h2, h3, h4, h5, h6]]
                simp only [List.cons_append, List.nil_append]
                rw [parseStrBody.eq_def]
                simp only [hbq, if_false, hbn, if_pos rfl, if_pos trivial,
                  hexDigitVal_hexDigit (c.toNat / 16) (by omega),
                  hexDigitVal_hexDigit (c.toNat % 16) (by omega), ih, Option.map_some]
                rw [show 16 * (c.toNat / 16) + c.toNat % 16 = c.toNat from by omega,
                  Char.ofNat_toNat]
                rfl
              · rw [show pyReprChar q c = [c] from by
                  simp [pyReprChar, h1, h2, h3, h4, h5, h6]]
                simp only [List.cons_append, List.nil_append]
                rw [parseStrBody.eq_def]
                have hcn : ¬ (c = nlChar ∨ c = crChar) := by
                  rintro (h | h) <;> [exact h3 h; exact h4 h]
                simp only [h2, if_false, hcn, h1, ih]
                rfl

theorem reprQuote_cases (s : List Char) : reprQuote s = squote ∨ reprQuote s = dquote := by
  unfold reprQuote
  split_ifs <;> simp

theorem pyLiteralEvalChars_cons (c : Char) (rest : List Char) :
    pyLiteralEvalChars (c :: rest) =
      if c = squote ∨ c = dquote then
        match parseStrBody c rest with
        | some p => if p.2 = [] then some (.pstr p.1.asString) else none
        | none => none
      else if c = '-' then
        if rest ≠ [] ∧ rest.all Char.isDigit then some (.pint (-(digitsVal rest : Int)))
        else none
      else if (c :: rest).all Char.isDigit then some (.pint (digitsVal (c :: rest)))
      else none := rfl

theorem literal_eval_pyRepr (s : List Char) :
    pyLiteralEvalChars (pyReprChars s) = some (.pstr s.asString) := by
  have hq := reprQuote_cases s
  have hbody := parseStrBody_flatten (reprQuote s) hq s []
  unfold pyReprChars
  show pyLiteralEvalChars
      (reprQuote s :: ((List.map (pyReprChar (reprQuote s)) s).flatten ++ [reprQuote s])) =
    some (PyLit.pstr s.asString)
  rw [pyLiteralEvalChars_cons, if_pos hq, hbody]
  rfl

/-! Round trip of a whole encoded log line. -/

theorem parseFields_3 (a b c : List Char) :
    parseFields [a, b, c] =
      match parse_datetime_chars a, parse_td_chars b, pyLiteralEvalChars c with
      | some dt, some td, some ds => some (dt, td, ds)
      | _, _, _ => none := rfl

theorem data_asString (l : List Char) : (l.asString).data = l := rfl

theorem asString_data (s : String) : s.data.asString = s := by
  cases s
  rfl

theorem dump_datetime_no_tab (t : Datetime) (h : ValidDT t) :
    ∀ c ∈ dump_datetime_chars t, c ≠ tabChar := by
  obtain ⟨h1, h2, h3, h4, h5, h6, h7, h8, h9⟩ := h
  have hd31 := le_trans h6 (daysInMonth_le_31 t.year t.month)
  intro c hc he
  subst he
  have p4 : tabChar ∉ pad4 t.year :=
    fun hm => absurd (pad4_isDigit (by omega) hm) (by decide)
  have p2a : tabChar ∉ pad2 t.month :=
    fun hm => absurd (pad2_isDigit (by omega) hm) (by decide)
  have p2b : tabChar ∉ pad2 t.day :=
    fun hm => absurd (pad2_isDigit (by omega) hm) (by decide)
  have p2c : tabChar ∉ pad2 t.hour :=
    fun hm => absurd (pad2_isDigit (by omega) hm) (by decide)
  have p2d : tabChar ∉ pad2 t.minute :=
    fun hm => absurd (pad2_isDigit (by omega) hm) (by decide)
  have p2e : tabChar ∉ pad2 t.second :=
    fun hm => absurd (pad2_isDigit (by omega) hm) (by decide)
  unfold dump_datetime_chars at hc
  simp [p4, p2a, p2b, p2c, p2d, p2e, (by decide : tabChar ≠ '-'),
    (by decide : tabChar ≠ spChar), (by decide : tabChar ≠ ':')] at hc

theorem dump_td_bounds (t : Int) : (t % 86400).toNat < 86400 := by
  have h1 := Int.emod_lt_of_pos t (by norm_num : (0 : Int) < 86400)
  have h2 := Int.emod_nonneg t (by norm_num : (86400 : Int) ≠ 0)
  omega

theorem dump_td_no_tab (t : Int) : ∀ c ∈ dump_td_chars t, c ≠ tabChar := by
  have hb := dump_td_bounds t
  intro c hc he
  subst he
  have p2a : tabChar ∉ pad2 ((t % 86400).toNat / (60 * 60)) :=
    fun hm => absurd (pad2_isDigit (by omega) hm) (by decide)
  have p2b : tabChar ∉ pad2 ((t % 86400).toNat % (60 * 60) / 60) :=
    fun hm => absurd (pad2_isDigit (by omega) hm) (by decide)
  have p2c : tabChar ∉ pad2 ((t % 86400).toNat % 60) :=
    fun hm => absurd (pad2_isDigit (by omega) hm) (by decide)
  unfold dump_td_chars at hc
  simp [p2a, p2b, p2c, (by decide : tabChar ≠ ':')] at hc

theorem stripL_dump_entry (t : Datetime) (td : Int) (desc : String) (hv : ValidDT t) :
    stripL (dump_entry_chars (t, td, desc)) = dump_entry_chars (t, td, desc) := by
  have hy : t.year ≤ 9999 := hv.2.1
  have hq := reprQuote_cases desc.data
  have hsplit : dump_entry_chars (t, td, desc) =
      (dump_datetime_chars t ++ tabChar :: dump_td_chars td ++
        tabChar :: (reprQuote desc.data ::
          (desc.data.map (pyReprChar (reprQuote desc.data))).flatten)) ++
        [reprQuote desc.data] := by
    unfold dump_entry_chars pyReprChars
    simp [List.append_assoc]
  apply stripL_first_last _ (digitChar (t.year / 1000)) (reprQuote desc.data)
  · unfold dump_entry_chars dump_datetime_chars pad4
    rfl
  · rw [hsplit]
    exact List.getLast?_concat _
  · exact isDigit_not_space (digitChar_isDigit _ (by omega))
  · rcases hq with h | h <;> rw [h] <;> decide

theorem parse_dump_entry (t : Datetime) (td : Int) (desc : String)
    (hv : ValidDT t) (h0 : 0 ≤ td) (h1 : td < 86400) :
    parse_entry (dump_entry (t, td, desc)) = some (t, td, .pstr desc) := by
  unfold parse_entry dump_entry
  rw [data_asString]
  unfold parse_entry_chars
  rw [stripL_dump_entry t td desc hv]
  unfold dump_entry_chars
  simp only [List.cons_append, List.append_assoc]
  rw [splitTab2_eq _ _ _ (dump_datetime_no_tab t hv) (dump_td_no_tab td)]
  rw [parseFields_3, parse_dump_datetime t hv, parse_dump_td td h0 h1,
    literal_eval_pyRepr]
  rfl

/-! Store-level lemmas about `Record.load` after `Record.write` calls. -/

theorem loadLines_cons (l : String) (ls : List String) :
    loadLines (l :: ls) =
      match parse_entry l, loadLines ls with
      | some e, some es => some (e :: es)
      | _, _ => none := rfl

theorem loadLines_append (l1 l2 : List String) (es1 es2 : List (Datetime × Int × PyLit))
    (h1 : loadLines l1 = some es1) (h2 : loadLines l2 = some es2) :
    loadLines (l1 ++ l2) = some (es1 ++ es2) := by
  induction l1 generalizing es1 with
  | nil =>
    simp only [loadLines, Option.some.injEq] at h1
    subst h1
    simpa using h2
  | cons l ls ih =>
    rw [loadLines_cons] at h1
    cases hp : parse_entry l with
    | none => rw [hp] at h1; simp at h1
    | some e =>
      cases hl : loadLines ls with
      | none => rw [hp, hl] at h1; simp at h1
      | some es =>
        rw [hp, hl] at h1
        simp only [Option.some.injEq] at h1
        subst h1
        rw [List.cons_append, loadLines_cons, hp, ih es hl]
        rfl

/-- Injection of a written triple into the type of loaded entries. -/
def loadedOf (w : Datetime × Int × String) : Datetime × Int × PyLit :=
  (w.1, w.2.1, PyLit.pstr w.2.2)

theorem load_write (s : RState) (es : List (Datetime × Int × PyLit))
    (w : Datetime × Int × String) (hs : Record.load s = some es)
    (hv : ValidDT w.1) (h0 : 0 ≤ w.2.1) (h1 : w.2.1 < 86400) :
    Record.load (Record.write s w) = some (es ++ [loadedOf w]) := by
  obtain ⟨t1, td1, d1⟩ := w
  unfold Record.load Record.write
  apply loadLines_append _ _ _ _ hs
  rw [loadLines_cons]
  rw [parse_dump_entry t1 td1 d1 hv h0 h1]
  rfl

theorem load_writeAll (s : RState) (es : List (Datetime × Int × PyLit))
    (ws : List (Datetime × Int × String)) (hs : Record.load s = some es)
    (hw : ∀ w ∈ ws, ValidDT w.1 ∧ 0 ≤ w.2.1 ∧ w.2.1 < 86400) :
    Record.load (writeAll s ws) = some (es ++ ws.map loadedOf) := by
  induction ws generalizing s es with
  | nil => simpa [writeAll] using hs
  | cons w ws ih =>
    obtain ⟨hv, h0, h1⟩ := hw w (by simp)
    have hstep := load_write s es w hs hv h0 h1
    have := ih (Record.write s w) (es ++ [loadedOf w]) hstep
      (fun x hx => hw x (by simp [hx]))
    rw [show writeAll s (w :: ws) = writeAll (Record.write s w) ws from rfl, this]
    simp

/-! Characterisation of decode failures (for the error-handling claims). -/

theorem parse_entry_none_iff (l : List Char) :
    parse_entry_chars l = none ↔ decodeFailCond l := by
  unfold parse_entry_chars decodeFailCond
  cases hsp : splitTab2 (stripL l) with
  | nil => simp [parseFields]
  | cons a t1 =>
    cases t1 with
    | nil => simp [parseFields]
    | cons b t2 =>
      cases t2 with
      | nil => simp [parseFields]
      | cons c t3 =>
        cases t3 with
        | nil =>
          rw [parseFields_3]
          cases hda : parse_datetime_chars a <;> cases htd : parse_td_chars b <;>
            cases hle : pyLiteralEvalChars c <;> simp [hda, htd, hle]
        | cons d t4 => simp [parseFields]

theorem loadLines_none_iff (ls : List String) :
    loadLines ls = none ↔ ∃ l ∈ ls, parse_entry l = none := by
  induction ls with
  | nil => simp [loadLines]
  | cons l ls ih =>
    rw [loadLines_cons]
    cases hp : parse_entry l with
    | none => simp [hp]
    | some e =>
      cases hl : loadLines ls with
      | none =>
        simp only [hp, hl]
        simp only [List.mem_cons, exists_eq_or_imp, hp]
        rw [← ih, hl]
        simp
      | some es =>
        simp only [hp, hl]
        simp only [List.mem_cons, exists_eq_or_imp, hp]
        rw [← ih, hl]
        simp

/-! Equivalence of the `log` command loop with the grouped listing of the spec. -/

theorem reverse_log_aux_cons_none (e : Datetime × Int × PyLit)
    (rest : List (Datetime × Int × PyLit)) :
    reverse_log_aux none (e :: rest) =
      (dump_entry_out e ++ "\n") :: reverse_log_aux (some (dateOf e.1)) rest := rfl

theorem reverse_log_aux_cons_some (c : Nat × Nat × Nat) (e : Datetime × Int × PyLit)
    (rest : List (Datetime × Int × PyLit)) :
    reverse_log_aux (some c) (e :: rest) =
      if c ≠ dateOf e.1 then
        "\n" :: (dump_entry_out e ++ "\n") :: reverse_log_aux (some (dateOf e.1)) rest
      else (dump_entry_out e ++ "\n") :: reverse_log_aux (some (dateOf e.1)) rest := rfl

theorem groupedListing_one (e : Datetime × Int × PyLit) :
    groupedListing [e] = [dump_entry_out e ++ "\n"] := rfl

theorem groupedListing_two (e1 e2 : Datetime × Int × PyLit)
    (rest : List (Datetime × Int × PyLit)) :
    groupedListing (e1 :: e2 :: rest) =
      (dump_entry_out e1 ++ "\n") ::
        ((if dateOf e1.1 ≠ dateOf e2.1 then ["\n"] else []) ++ groupedListing (e2 :: rest)) :=
  rfl

theorem reverse_log_aux_sep (l : List (Datetime × Int × PyLit)) :
    ∀ (c : Nat × Nat × Nat) (e : Datetime × Int × PyLit),
      reverse_log_aux (some c) (e :: l) =
        (if c ≠ dateOf e.1 then ["\n"] else []) ++ groupedListing (e :: l) := by
  induction l with
  | nil =>
    intro c e
    rw [reverse_log_aux_cons_some, groupedListing_one]
    by_cases h : c ≠ dateOf e.1 <;> simp [h, reverse_log_aux]
  | cons e2 l2 ih =>
    intro c e
    rw [reverse_log_aux_cons_some, ih (dateOf e.1) e2, groupedListing_two]
    by_cases h : c ≠ dateOf e.1 <;> simp [h]

theorem reverse_log_eq_grouped (entries : List (Datetime × Int × PyLit)) :
    reverse_log entries = groupedListing entries.reverse := by
  unfold reverse_log
  cases hr : entries.reverse with
  | nil => rfl
  | cons e l =>
    rw [reverse_log_aux_cons_none]
    cases l with
    | nil => rw [groupedListing_one]; rfl
    | cons e2 l2 => rw [reverse_log_aux_sep l2 (dateOf e.1) e2, groupedListing_two]

/-! Claim theorems. -/

/-- Claim C1: the round-trip law `parse_entry (dump_entry e) = e` FAILS on the
code for durations of 24 hours or more. Evaluating the codec at the entry
(2024-01-01 09:00:00, 25 hours = 90000 s, "did x") returns the duration
reduced to 1 hour = 3600 s, because `dump_td` reads the normalised
`td.seconds` attribute and thereby drops whole days. -/
theorem c1_roundtrip_drops_days :
    parse_entry (dump_entry (⟨2024, 1, 1, 9, 0, 0⟩, 90000, "did x")) =
      some (⟨2024, 1, 1, 9, 0, 0⟩, 3600, PyLit.pstr ("did x")) ∧ (3600 : Int) ≠ 90000 :=
  ⟨rfl, by decide⟩

/-- Claim C2: the duration encoder does NOT carry hours past 23: a duration
of 25 hours (90000 seconds) is rendered "01:00:00", not "25:00:00", because
`dump_td` divides `td.seconds` (which Python normalises into `[0, 86400)`)
instead of `total_seconds()`. -/
theorem c2_dump_td_25h :
    dump_td 90000 = "01:00:00" ∧ dump_td 90000 ≠ "25:00:00" :=
  ⟨rfl, by decide⟩

/-- Claim C3: if `start` is called on a marker-free store and then called
again without an intervening `stop`, the first call succeeds and the second
call returns failure with the state (marker content, timestamp and log)
exactly as the first call left it. -/
theorem c3_start_mutual_exclusion (s : RState) (n1 n2 : Datetime)
    (h : s.marker = none) :
    (Record.start n1 s).1 = true ∧
    Record.start n2 (Record.start n1 s).2 = (false, (Record.start n1 s).2) ∧
    (Record.start n1 s).2.marker = some (dump_datetime n1) ∧
    (Record.start n1 s).2.timelog = s.timelog := by
  unfold Record.start
  rw [h]
  simp

/-- Witness for C3 at a concrete store and timestamps. -/
theorem c3_witness :
    (Record.start ⟨2024, 1, 1, 9, 0, 0⟩ initState).1 = true ∧
    Record.start ⟨2024, 1, 1, 9, 5, 0⟩ (Record.start ⟨2024, 1, 1, 9, 0, 0⟩ initState).2 =
      (false, (Record.start ⟨2024, 1, 1, 9, 0, 0⟩ initState).2) ∧
    (Record.start ⟨2024, 1, 1, 9, 0, 0⟩ initState).2.marker =
      some (dump_datetime ⟨2024, 1, 1, 9, 0, 0⟩) ∧
    (Record.start ⟨2024, 1, 1, 9, 0, 0⟩ initState).2.timelog = initState.timelog :=
  c3_start_mutual_exclusion initState ⟨2024, 1, 1, 9, 0, 0⟩ ⟨2024, 1, 1, 9, 5, 0⟩ rfl

/-- Claim C4 counterexample: writing the triple with duration 25 hours
(90000 s) and loading back returns ONE entry whose duration is 3600 s — not
the triple that was written — so the append-only law as stated fails. -/
theorem c4_counterexample :
    Record.load (Record.write initState (⟨2024, 1, 1, 9, 0, 0⟩, 90000, "x")) =
      some [(⟨2024, 1, 1, 9, 0, 0⟩, 3600, PyLit.pstr ("x"))] ∧ (3600 : Int) ≠ 90000 :=
  ⟨rfl, by decide⟩

/-- Claim C4 (amended): for every store whose log loads as `es` and every
sequence of writes of well-formed timestamps and durations below 24 hours,
`load` after the writes returns the prior entries followed by exactly the
written triples, in call order; and every single `write` appends exactly one
line, leaving all prior lines unchanged. -/
theorem c4_append_only (s : RState) (es : List (Datetime × Int × PyLit))
    (ws : List (Datetime × Int × String))
    (hs : Record.load s = some es)
    (hw : ∀ w ∈ ws, ValidDT w.1 ∧ 0 ≤ w.2.1 ∧ w.2.1 < 86400) :
    Record.load (writeAll s ws) = some (es ++ ws.map loadedOf) ∧
    (∀ (s2 : RState) (w : Datetime × Int × String),
      (Record.write s2 w).timelog = s2.timelog ++ [dump_entry w]) :=
  ⟨load_writeAll s es ws hs hw, fun _ _ => rfl⟩

/-- Witness for C4 (amended) with two concrete writes, one description
containing a tab. -/
theorem c4_witness :
    Record.load (writeAll initState
      [(⟨2024, 1, 1, 9, 0, 0⟩, 5, "did X"), (⟨2024, 1, 2, 10, 0, 0⟩, 3600, "a\tb")]) =
      some [(⟨2024, 1, 1, 9, 0, 0⟩, 5, PyLit.pstr ("did X")),
        (⟨2024, 1, 2, 10, 0, 0⟩, 3600, PyLit.pstr ("a\tb"))] :=
  (c4_append_only initState []
    [(⟨2024, 1, 1, 9, 0, 0⟩, 5, "did X"), (⟨2024, 1, 2, 10, 0, 0⟩, 3600, "a\tb")]
    rfl (by decide)).1

/-- Claim C5: `current` returns `(absent, zero)` exactly when no marker
exists; with a parseable marker it returns the recorded start and
`now - start`; after a successful `start` it returns that start time; and
after `stop` it returns `(absent, zero)`. -/
theorem c5_current_spec (s : RState) (now n1 n2 : Datetime) :
    (Record.current now s = some (none, 0) ↔ s.marker = none) ∧
    (∀ (m : String) (t : Datetime), s.marker = some m → parse_datetime m = some t →
      Record.current now s = some (some t, dtSub now t)) ∧
    (ValidDT n1 → s.marker = none →
      (Record.start n1 s).1 = true ∧
      Record.current n2 (Record.start n1 s).2 = some (some n1, dtSub n2 n1)) ∧
    Record.current now (Record.stop s) = some (none, 0) := by
  refine ⟨?_, ?_, ?_, ?_⟩
  · cases hm : s.marker with
    | none => simp [Record.current, hm]
    | some m =>
      unfold Record.current
      rw [hm]
      cases hp : parse_datetime m <;> simp [hp]
  · intro m t hm hp
    unfold Record.current
    rw [hm]
    simp [hp]
  · intro hv hm
    unfold Record.start
    rw [hm]
    refine ⟨by simp, ?_⟩
    unfold Record.current
    simp
    exact ⟨n1, parse_dump_datetime n1 hv, rfl, rfl⟩
  · simp [Record.current, Record.stop]

/-- Witness for C5 at a concrete marker and clock. -/
theorem c5_witness :
    Record.current ⟨2024, 1, 1, 9, 0, 5⟩ ⟨some ("2024-01-01 09:00:00"), []⟩ =
      some (some ⟨2024, 1, 1, 9, 0, 0⟩, 5) ∧
    Record.current ⟨2024, 1, 1, 9, 0, 5⟩ (Record.stop ⟨some ("2024-01-01 09:00:00"), []⟩) =
      some (none, 0) :=
  ⟨(c5_current_spec ⟨some ("2024-01-01 09:00:00"), []⟩ ⟨2024, 1, 1, 9, 0, 5⟩
      ⟨2024, 1, 1, 9, 0, 5⟩ ⟨2024, 1, 1, 9, 0, 5⟩).2.1 ("2024-01-01 09:00:00")
      ⟨2024, 1, 1, 9, 0, 0⟩ rfl (by decide),
    (c5_current_spec ⟨some ("2024-01-01 09:00:00"), []⟩ ⟨2024, 1, 1, 9, 0, 5⟩
      ⟨2024, 1, 1, 9, 0, 5⟩ ⟨2024, 1, 1, 9, 0, 5⟩).2.2.2⟩

/-- Claim C6 counterexample: the line whose date field is "2024-1-1 0:0:0"
and duration field "0:0:0" — neither in its fixed-width format — decodes
successfully (strptime and int accept non-zero-padded fields), refuting the
claim that decoding fails on every line whose fields do not match the fixed
formats. -/
theorem c6_counterexample :
    parse_entry ("2024-1-1 0:0:0\t0:0:0\t" ++ (List.asString [squote, squote])) =
      some (⟨2024, 1, 1, 0, 0, 0⟩, 0, PyLit.pstr ("")) ∧
    fixedDateFormat ("2024-1-1 0:0:0") = false :=
  ⟨rfl, rfl⟩

/-- Claim C6 (amended): decoding a line fails exactly when, after stripping
surrounding whitespace, the two-split on tabs does not yield three fields,
or the date-time field is not accepted by the lenient strptime matching, or
the duration field is not three colon-separated integers, or the
description field is not a valid literal; and `load` fails exactly when some
line fails — no line is skipped. -/
theorem c6_decode_error_iff (line : String) (s : RState) :
    (parse_entry line = none ↔ decodeFailCond line.data) ∧
    (Record.load s = none ↔ ∃ l ∈ s.timelog, parse_entry l = none) :=
  ⟨parse_entry_none_iff line.data, loadLines_none_iff s.timelog⟩

/-- Claim C7: the `show` command keeps exactly the loaded entries whose
start date equals the requested date (the current date when no argument is
given), preserving their order. -/
theorem c7_show_filters_by_date (entries : List (Datetime × Int × PyLit))
    (dateArg : Option Datetime) (now : Datetime) :
    (∀ e, e ∈ show_records entries dateArg now ↔
      e ∈ entries ∧ dateOf e.1 = dateOf (dateArg.getD now)) ∧
    List.Sublist (show_records entries dateArg now) entries := by
  constructor
  · intro e
    unfold show_records
    rw [List.mem_filter]
    simp
  · exact List.filter_sublist _

/-- Claim C8: the reverse listing of the `log` command equals the grouped
listing described by the spec — each entry once, in reverse order, with
exactly one blank separator between adjacent entries of different calendar
dates and none between same-day entries. -/
theorem c8_log_grouping (entries : List (Datetime × Int × PyLit)) :
    reverse_log entries = groupedListing entries.reverse :=
  reverse_log_eq_grouped entries

/-- Claim C9: `stop` is idempotent and never errors: it always yields the
marker-free state with the log untouched, so stopping twice equals stopping
once, and stopping an idle store is a harmless no-op. -/
theorem c9_stop_idempotent (s : RState) :
    Record.stop (Record.stop s) = Record.stop s ∧
    Record.stop s = ⟨none, s.timelog⟩ :=
  ⟨rfl, rfl⟩

/-- Claim C10: the `status` display reduces hours modulo 24: for any
representable elapsed time the shown `%H` field is the total hours modulo
24 (so 25 hours elapsed displays as 01:00:00). -/
theorem c10_status_mod_24h (e : Int) (h0 : 0 ≤ e) (h1 : e ≤ 315537897599) :
    statusTime e = some (e.toNat / 3600 % 24, e.toNat % 3600 / 60, e.toNat % 60) := by
  unfold statusTime
  rw [if_neg (by omega)]
  simp only [Option.some.injEq, Prod.mk.injEq]
  refine ⟨?_, ?_, ?_⟩ <;> omega

/-- Witness for C10: an elapsed time of 25 hours displays as 01:00:00. -/
theorem c10_witness : statusTime 90000 = some (1, 0, 0) :=
  c10_status_mod_24h 90000 (by decide) (by decide)

end TimeTracker
